import Mathlib

/-!
Verification of the query-resolution and streaming pipeline of the repository
(`fix_thumbnails.py`).  Python strings are embedded as `List Char` where
character-level reasoning is needed and as `String` elsewhere; machine floats
used only as clocks are embedded as `Nat` seconds; dictionaries are embedded
as association lists.  Each definition is a direct translation of the Python
function of the same name.
-/

/-- Set-like notation-free test for membership of a character in the class
`[0-9A-Za-z_-]` used by every ID pattern in `extract_video_id` and by the
direct-ID regex in the `/youtube` handler. -/
def urlSafe (c : Char) : Bool :=
  c.isAlpha || c.isDigit || c == '_' || c == '-'

/-- Embeds `re.match(r'^[a-zA-Z0-9_-]{11}$', query)` from the `/youtube`
handler (and the identical test in `get_details`): the whole string is
exactly 11 characters of the URL-safe class. -/
def isVideoIdStr (s : List Char) : Bool :=
  s.length == 11 && s.all urlSafe

/-- Boolean test that `pre` is an initial segment of `s`. -/
def listStarts : List Char → List Char → Bool
  | [], _ => true
  | _ :: _, [] => false
  | a :: pre, b :: s => a == b && listStarts pre s

/-- Embeds the optional scheme group `(?:https?:\/\/)?` of the URL regexes in
`is_youtube_url`: drop a leading `https://` or `http://` when present. -/
def stripScheme (s : List Char) : List Char :=
  if listStarts "https://".toList s then s.drop 8
  else if listStarts "http://".toList s then s.drop 7
  else s

/-- Embeds the optional group `(?:www\.)?` of the URL regexes in
`is_youtube_url`. -/
def stripWww (s : List Char) : List Char :=
  if listStarts "www.".toList s then s.drop 4 else s

/-- Embeds `is_youtube_url`: `re.match` of one of the four anchored-at-start
patterns (`watch?v=`, `youtu.be/`, `embed/`, `v/` shapes), each with optional
scheme and optional `www.`. -/
def is_youtube_url (s : List Char) : Bool :=
  let t := stripWww (stripScheme s)
  listStarts "youtube.com/watch?v=".toList t ||
  listStarts "youtu.be/".toList t ||
  listStarts "youtube.com/embed/".toList t ||
  listStarts "youtube.com/v/".toList t

/-- Embeds the sub-pattern `([0-9A-Za-z_-]{11})` at the current position:
exactly eleven URL-safe characters must follow (the trailing `.*` of the
first pattern of `extract_video_id` always matches). -/
def take11Safe (s : List Char) : Option (List Char) :=
  if (s.take 11).all urlSafe && (s.take 11).length == 11 then some (s.take 11)
  else none

/-- Match of the first pattern of `extract_video_id`,
`(?:v=|\/)([0-9A-Za-z_-]{11}).*`, anchored at the current position: the
alternation `v=` / `/` followed by the eleven-character group. -/
def matchAt1 : List Char → Option (List Char)
  | 'v' :: '=' :: rest => take11Safe rest
  | '/' :: rest => take11Safe rest
  | _ => none

/-- The `re.search` scan for the first pattern of `extract_video_id`: try
`matchAt1` at each position, left to right. -/
def searchP1 : List Char → Option (List Char)
  | [] => none
  | c :: rest =>
    match matchAt1 (c :: rest) with
    | some v => some v
    | none => searchP1 rest

/-- Match of a literal followed by the eleven-character group at the current
position (patterns `(?:embed\/)(...)` and `(?:watch\?v=)(...)` of
`extract_video_id`). -/
def matchLit (lit : List Char) (s : List Char) : Option (List Char) :=
  if listStarts lit s then take11Safe (s.drop lit.length) else none

/-- The `re.search` scan for a literal-headed pattern of
`extract_video_id`. -/
def searchLit (lit : List Char) : List Char → Option (List Char)
  | [] => none
  | c :: rest =>
    match matchLit lit (c :: rest) with
    | some v => some v
    | none => searchLit lit rest

/-- Embeds `extract_video_id`: the four patterns are tried in order, first
match wins; the last pattern `^([0-9A-Za-z_-]{11})$` accepts a bare ID. -/
def extract_video_id (s : List Char) : Option (List Char) :=
  match searchP1 s with
  | some v => some v
  | none =>
    match searchLit "embed/".toList s with
    | some v => some v
    | none =>
      match searchLit "watch?v=".toList s with
      | some v => some v
      | none => if isVideoIdStr s then some s else none

/-- The canonical watch URL `https://www.youtube.com/watch?v={vid}` built by
`normalize_url` and by the `/youtube` handler for direct IDs. -/
def canonicalWatch (vid : List Char) : List Char :=
  "https://www.youtube.com/watch?v=".toList ++ vid

/-- Embeds `normalize_url(url)` with its default `video_id=None` argument:
a recognized platform URL with an extractable ID is rewritten to the
canonical watch form, anything else is returned unchanged. -/
def normalize_url_noid (url : List Char) : List Char :=
  if is_youtube_url url then
    match extract_video_id url with
    | some vid => canonicalWatch vid
    | none => url
  else url

/-- Embeds `normalize_url(url, video_id)`: a truthy `video_id` short-circuits
to the canonical form (the empty string is falsy in Python and falls
through). -/
def normalize_url (url : List Char) (video_id : Option (List Char)) : List Char :=
  match video_id with
  | some vid => if vid.isEmpty then normalize_url_noid url else canonicalWatch vid
  | none => normalize_url_noid url

/-- Result of the query classification performed at the top of the `/youtube`
handler. -/
inductive QueryClass where
  | searchTerm : QueryClass
  | directId (canonical_url : List Char) : QueryClass
  | canonicalUrl (url : List Char) : QueryClass
deriving DecidableEq, Repr

/-- Embeds the classification in the `/youtube` handler: `is_url =
is_youtube_url(query)`, `is_video_id = re.match(r'^[a-zA-Z0-9_-]{11}$',
query)`; when neither holds the handler takes the search branch, otherwise
the direct branch with `video_url = query if is_url else
f"https://www.youtube.com/watch?v={query}"`. -/
def classify (query : List Char) : QueryClass :=
  if is_youtube_url query then .canonicalUrl query
  else if isVideoIdStr query then .directId (canonicalWatch query)
  else .searchTerm

example : classify "dQw4w9WgXcQ".toList =
    .directId "https://www.youtube.com/watch?v=dQw4w9WgXcQ".toList := by decide

example : classify "https://www.youtube.com/watch?v=dQw4w9WgXcQ".toList =
    .canonicalUrl "https://www.youtube.com/watch?v=dQw4w9WgXcQ".toList := by decide

example : extract_video_id "https://www.youtube.com/watch?v=dQw4w9WgXcQ".toList =
    some "dQw4w9WgXcQ".toList := by decide

example : classify "lofi hip hop radio".toList = .searchTerm := by decide

example : normalize_url_noid "https://youtu.be/dQw4w9WgXcQ".toList =
    "https://www.youtube.com/watch?v=dQw4w9WgXcQ".toList := by decide

lemma listStarts_all_safe {pre s : List Char} (h : listStarts pre s = true)
    (hs : s.all urlSafe = true) : pre.all urlSafe = true := by
  induction pre generalizing s with
  | nil => rfl
  | cons a pre ih =>
    cases s with
    | nil => simp [listStarts] at h
    | cons b s =>
      simp only [listStarts, Bool.and_eq_true, beq_iff_eq] at h
      simp only [List.all_cons, Bool.and_eq_true] at hs ⊢
      exact ⟨h.1 ▸ hs.1, ih h.2 hs.2⟩

lemma safe_not_starts {pre s : List Char} (hs : s.all urlSafe = true)
    (hpre : pre.all urlSafe = false) : listStarts pre s = false := by
  cases h : listStarts pre s
  · rfl
  · rw [listStarts_all_safe h hs] at hpre
    exact hpre

lemma safe_is_youtube_url_false {s : List Char} (hs : s.all urlSafe = true) :
    is_youtube_url s = false := by
  have h1 : listStarts ['h', 't', 't', 'p', 's', ':', '/', '/'] s = false :=
    safe_not_starts hs (by decide)
  have h2 : listStarts ['h', 't', 't', 'p', ':', '/', '/'] s = false :=
    safe_not_starts hs (by decide)
  have h3 : listStarts ['w', 'w', 'w', '.'] s = false :=
    safe_not_starts hs (by decide)
  have hscheme : stripScheme s = s := by simp [stripScheme, h1, h2]
  have hwww : stripWww s = s := by simp [stripWww, h3]
  simp only [is_youtube_url, hscheme, hwww]
  simp [safe_not_starts hs (show List.all ['y', 'o', 'u', 't', 'u', 'b', 'e', '.', 'c', 'o', 'm', '/', 'w', 'a', 't', 'c', 'h', '?', 'v', '='] urlSafe = false by decide),
    safe_not_starts hs (show List.all ['y', 'o', 'u', 't', 'u', '.', 'b', 'e', '/'] urlSafe = false by decide),
    safe_not_starts hs (show List.all ['y', 'o', 'u', 't', 'u', 'b', 'e', '.', 'c', 'o', 'm', '/', 'e', 'm', 'b', 'e', 'd', '/'] urlSafe = false by decide),
    safe_not_starts hs (show List.all ['y', 'o', 'u', 't', 'u', 'b', 'e', '.', 'c', 'o', 'm', '/', 'v', '/'] urlSafe = false by decide)]

/-- C4: every query of exactly 11 URL-safe characters is classified as a
direct video ID and the handler builds the canonical watch URL from it,
never treating it as a search term; the canonical watch URL for
`dQw4w9WgXcQ` is classified as a URL and `extract_video_id` recovers
`dQw4w9WgXcQ` from it. -/
theorem classify_direct_id_and_watch_url :
    (∀ s : List Char, isVideoIdStr s = true →
        classify s = .directId (canonicalWatch s)) ∧
    classify "https://www.youtube.com/watch?v=dQw4w9WgXcQ".toList =
      .canonicalUrl "https://www.youtube.com/watch?v=dQw4w9WgXcQ".toList ∧
    extract_video_id "https://www.youtube.com/watch?v=dQw4w9WgXcQ".toList =
      some "dQw4w9WgXcQ".toList := by
  refine ⟨?_, by decide, by decide⟩
  intro s h
  have hs : s.all urlSafe = true := by
    simp only [isVideoIdStr, Bool.and_eq_true] at h
    exact h.2
  simp [classify, safe_is_youtube_url_false hs, h]

theorem classify_direct_id_and_watch_url_witness :
    classify "dQw4w9WgXcQ".toList =
      .directId (canonicalWatch "dQw4w9WgXcQ".toList) :=
  classify_direct_id_and_watch_url.1 _ (by decide)

/-- C7: the classifier is a total function (the embedding is a Lean
function, hence terminates on every input and raises nothing), and any
query matching neither the 11-character ID pattern nor one of the known URL
shapes — including an URL-shaped string with no parseable video reference —
falls through to the search-term class. -/
theorem classify_total_search_fallthrough :
    (∀ s : List Char, is_youtube_url s = false → isVideoIdStr s = false →
        classify s = .searchTerm) ∧
    classify "https://!!unparseable!!".toList = .searchTerm ∧
    classify "lofi hip hop radio".toList = .searchTerm := by
  refine ⟨?_, by decide, by decide⟩
  intro s h1 h2
  simp [classify, h1, h2]

theorem classify_total_search_fallthrough_witness :
    classify "hello world".toList = .searchTerm :=
  classify_total_search_fallthrough.1 _ (by decide) (by decide)

lemma take11Safe_some {s v : List Char} (h : take11Safe s = some v) :
    v.all urlSafe = true ∧ v.length = 11 := by
  unfold take11Safe at h
  split at h
  · rename_i hc
    simp only [Bool.and_eq_true, beq_iff_eq] at hc
    cases h
    exact hc
  · exact absurd h (by simp)

lemma matchAt1_some {s v : List Char} (h : matchAt1 s = some v) :
    v.all urlSafe = true ∧ v.length = 11 := by
  unfold matchAt1 at h
  split at h
  · exact take11Safe_some h
  · exact take11Safe_some h
  · exact absurd h (by simp)

lemma searchP1_some {s v : List Char} (h : searchP1 s = some v) :
    v.all urlSafe = true ∧ v.length = 11 := by
  induction s with
  | nil => exact absurd h (by simp [searchP1])
  | cons c rest ih =>
    rw [searchP1] at h
    split at h
    · rename_i hm
      cases h
      exact matchAt1_some hm
    · exact ih h

lemma matchLit_some {lit s v : List Char} (h : matchLit lit s = some v) :
    v.all urlSafe = true ∧ v.length = 11 := by
  unfold matchLit at h
  split at h
  · exact take11Safe_some h
  · exact absurd h (by simp)

lemma searchLit_some {lit s v : List Char} (h : searchLit lit s = some v) :
    v.all urlSafe = true ∧ v.length = 11 := by
  induction s with
  | nil => exact absurd h (by simp [searchLit])
  | cons c rest ih =>
    rw [searchLit] at h
    split at h
    · rename_i hm
      cases h
      exact matchLit_some hm
    · exact ih h

lemma extract_video_id_some {s v : List Char} (h : extract_video_id s = some v) :
    v.all urlSafe = true ∧ v.length = 11 := by
  unfold extract_video_id at h
  split at h
  · rename_i hm
    cases h
    exact searchP1_some hm
  · split at h
    · rename_i hm
      cases h
      exact searchLit_some hm
    · split at h
      · rename_i hm
        cases h
        exact searchLit_some hm
      · split at h
        · rename_i hm
          cases h
          simp only [isVideoIdStr, Bool.and_eq_true, beq_iff_eq] at hm
          exact ⟨hm.2, hm.1⟩
        · exact absurd h (by simp)

lemma take11Safe_self {v : List Char} (hall : v.all urlSafe = true)
    (hlen : v.length = 11) : take11Safe v = some v := by
  have ht : v.take 11 = v := List.take_of_length_le (by omega)
  simp [take11Safe, ht, hall, hlen]

lemma is_youtube_url_canonical (v : List Char) :
    is_youtube_url (canonicalWatch v) = true := rfl

lemma searchP1_canonical {v : List Char} (hv : take11Safe v = some v) :
    searchP1 (canonicalWatch v) = some v := by
  have hstep : searchP1 (canonicalWatch v) =
      (match take11Safe v with
       | some x => some x
       | none => searchP1 ('=' :: v)) := rfl
  rw [hstep, hv]

lemma extract_video_id_canonical {v : List Char} (hall : v.all urlSafe = true)
    (hlen : v.length = 11) : extract_video_id (canonicalWatch v) = some v := by
  unfold extract_video_id
  rw [searchP1_canonical (take11Safe_self hall hlen)]

lemma normalize_canonical_fixed {v : List Char} (hall : v.all urlSafe = true)
    (hlen : v.length = 11) :
    normalize_url_noid (canonicalWatch v) = canonicalWatch v := by
  unfold normalize_url_noid
  rw [is_youtube_url_canonical, extract_video_id_canonical hall hlen]
  rfl

/-- C10: `normalize_url` (with its default `video_id=None`) is idempotent on
every input string, and on every recognized platform URL with an extractable
ID it produces the canonical watch form. -/
theorem normalize_url_idempotent :
    (∀ u : List Char, normalize_url (normalize_url u none) none =
        normalize_url u none) ∧
    (∀ u vid : List Char, is_youtube_url u = true →
        extract_video_id u = some vid →
        normalize_url u none = canonicalWatch vid) := by
  have hnorm : ∀ u vid : List Char, is_youtube_url u = true →
      extract_video_id u = some vid →
      normalize_url_noid u = canonicalWatch vid := by
    intro u vid hu hex
    unfold normalize_url_noid
    rw [hu, hex]
    rfl
  constructor
  · intro u
    show normalize_url_noid (normalize_url_noid u) = normalize_url_noid u
    by_cases hu : is_youtube_url u = true
    · cases hex : extract_video_id u with
      | none =>
        have hid : normalize_url_noid u = u := by
          unfold normalize_url_noid
          rw [hu, hex]
          rfl
        rw [hid, hid]
      | some vid =>
        obtain ⟨hall, hlen⟩ := extract_video_id_some hex
        rw [hnorm u vid hu hex, normalize_canonical_fixed hall hlen]
    · have hid : normalize_url_noid u = u := by
        unfold normalize_url_noid
        rw [Bool.of_not_eq_true hu]
        rfl
      rw [hid, hid]
  · intro u vid hu hex
    exact hnorm u vid hu hex

theorem normalize_url_idempotent_witness :
    normalize_url "https://youtu.be/dQw4w9WgXcQ".toList none =
      canonicalWatch "dQw4w9WgXcQ".toList :=
  normalize_url_idempotent.2 _ _ (by decide) (by decide)

/-- One entry of the `info['formats']` list consumed by `get_stream_url`.
The `vcodec` / `acodec` fields are `Option`s because the Python code reads
them with `f.get(...)`, which yields `None` when the key is absent. -/
structure FormatEntry where
  vcodec : Option String
  acodec : Option String
  url : String
deriving DecidableEq, Repr

/-- Embeds the test `f.get('vcodec') != 'none'` (note that an absent key
compares unequal to the string `'none'` and therefore counts as carrying a
video track). -/
def hasVideoTrack (f : FormatEntry) : Bool :=
  f.vcodec != some "none"

/-- Embeds the test `f.get('acodec') != 'none'`. -/
def hasAudioTrack (f : FormatEntry) : Bool :=
  f.acodec != some "none"

/-- Embeds `f.get('vcodec') != 'none' and f.get('acodec') != 'none'`: the
combined (video plus audio) filter of the video branch. -/
def isCombined (f : FormatEntry) : Bool :=
  hasVideoTrack f && hasAudioTrack f

/-- Embeds `f.get('acodec') != 'none' and f.get('vcodec') == 'none'`: the
audio-only filter of the audio branch. -/
def isAudioOnly (f : FormatEntry) : Bool :=
  hasAudioTrack f && f.vcodec == some "none"

/-- The part of the extraction result `get_stream_url` inspects: the
optional direct `'url'` key and the `'formats'` list (in the capability's
own ascending-quality order). -/
structure StreamInfo where
  url : Option String
  formats : List FormatEntry
deriving Repr

/-- Embeds the stream-URL selection block of `get_stream_url` (the body of
`with yt_dlp.YoutubeDL(...)`): a direct `'url'` key wins; otherwise a
nonempty `'formats'` list is filtered by mode and the last element (Python
`[-1]`, the highest-indexed) of the filtered list is taken, with the coded
fallbacks; `none` models the early `return ""` when neither key is
usable. -/
def pick_stream_url (info : StreamInfo) (is_video : Bool) : Option String :=
  match info.url with
  | some u => some u
  | none =>
    if info.formats.isEmpty then none
    else if is_video then
      let video_formats := info.formats.filter isCombined
      let video_formats :=
        if video_formats.isEmpty then info.formats.filter hasVideoTrack
        else video_formats
      match video_formats.getLast? with
      | some f => some f.url
      | none => (info.formats.getLast?).map FormatEntry.url
    else
      let audio_formats := info.formats.filter isAudioOnly
      let audio_formats :=
        if audio_formats.isEmpty then info.formats.filter hasAudioTrack
        else audio_formats
      match audio_formats.getLast? with
      | some f => some f.url
      | none => (info.formats.getLast?).map FormatEntry.url

example :
    pick_stream_url
      ⟨none, [⟨some "vp9", some "none", "vo1"⟩, ⟨some "avc1", some "mp4a", "combined"⟩,
        ⟨some "vp9", some "none", "vo2"⟩]⟩ true = some "combined" := by decide

lemma combined_filter_nil {fs : List FormatEntry}
    (h : fs.filter hasVideoTrack = []) : fs.filter isCombined = [] := by
  rw [List.filter_eq_nil_iff] at h ⊢
  intro a ha hc
  exact h a ha (by
    simp only [isCombined, Bool.and_eq_true] at hc
    exact hc.1)

/-- C3: in the video mode of `get_stream_url`, when the extraction result
has no direct URL and a nonempty format list, the selected URL is that of
the highest-indexed format carrying both tracks; with no combined format it
is the highest-indexed format carrying video; with neither it is the last
(best-effort) format overall; and a list whose combined sublist is exactly
one entry always yields that entry, regardless of where it sits in the
list. -/
theorem video_format_selection :
    (∀ (fs : List FormatEntry) (f : FormatEntry),
        (fs.filter isCombined).getLast? = some f →
        pick_stream_url ⟨none, fs⟩ true = some f.url) ∧
    (∀ (fs : List FormatEntry) (f : FormatEntry),
        fs.filter isCombined = [] →
        (fs.filter hasVideoTrack).getLast? = some f →
        pick_stream_url ⟨none, fs⟩ true = some f.url) ∧
    (∀ (fs : List FormatEntry) (f : FormatEntry),
        fs.filter hasVideoTrack = [] →
        fs.getLast? = some f →
        pick_stream_url ⟨none, fs⟩ true = some f.url) ∧
    (∀ (fs : List FormatEntry) (f : FormatEntry),
        fs.filter isCombined = [f] →
        pick_stream_url ⟨none, fs⟩ true = some f.url) := by
  have key : ∀ (fs : List FormatEntry) (f : FormatEntry),
      (fs.filter isCombined).getLast? = some f →
      pick_stream_url ⟨none, fs⟩ true = some f.url := by
    intro fs f h
    have hvne : fs.filter isCombined ≠ [] := by
      intro he
      rw [he] at h
      exact absurd h (by simp)
    have hfsne : fs ≠ [] := by
      intro he
      rw [he] at hvne
      exact hvne rfl
    simp only [pick_stream_url]
    rw [if_neg (by simpa [List.isEmpty_iff] using hfsne), if_pos trivial,
      if_neg (by simpa [List.isEmpty_iff] using hvne), h]
  refine ⟨key, ?_, ?_, ?_⟩
  · intro fs f hnil h
    have hvne : fs.filter hasVideoTrack ≠ [] := by
      intro he
      rw [he] at h
      exact absurd h (by simp)
    have hfsne : fs ≠ [] := by
      intro he
      rw [he] at hvne
      exact hvne (by simp)
    simp only [pick_stream_url]
    rw [if_neg (by simpa [List.isEmpty_iff] using hfsne), if_pos trivial,
      if_pos (by simp [List.isEmpty_iff, hnil]), h]
  · intro fs f hnil h
    have hfsne : fs ≠ [] := by
      intro he
      rw [he] at h
      exact absurd h (by simp)
    simp only [pick_stream_url]
    rw [if_neg (by simpa [List.isEmpty_iff] using hfsne), if_pos trivial,
      if_pos (by simp [List.isEmpty_iff, combined_filter_nil hnil]), hnil]
    simp [h]
  · intro fs f h
    exact key fs f (by rw [h]; rfl)

theorem video_format_selection_witness :
    pick_stream_url
      ⟨none, [⟨some "vp9", some "none", "videoOnlyA"⟩,
        ⟨some "avc1", some "mp4a", "combinedB"⟩,
        ⟨some "vp9", some "none", "videoOnlyC"⟩]⟩ true = some "combinedB" :=
  video_format_selection.2.2.2
    [⟨some "vp9", some "none", "videoOnlyA"⟩,
      ⟨some "avc1", some "mp4a", "combinedB"⟩,
      ⟨some "vp9", some "none", "videoOnlyC"⟩]
    ⟨some "avc1", some "mp4a", "combinedB"⟩ (by decide)

/-- One entry of the `info_dict['thumbnails']` list: resolution fields read
with `t.get('width', 0)` / `t.get('height', 0)` default to zero, and the
URL read with `t.get('url')` is the empty string when absent (Python falsy). -/
structure Thumb where
  url : String
  width : Nat
  height : Nat
deriving DecidableEq, Repr

/-- The sort key `x.get('width', 0) * x.get('height', 0)` of
`extract_best_thumbnail`. -/
def thumbArea (t : Thumb) : Nat :=
  t.width * t.height

/-- Embeds `[t for t in thumbnails if t and t.get('url')]`: entries that are
Python `None` are dropped, as are entries without a truthy URL. -/
def valid_thumbnails (ts : List (Option Thumb)) : List Thumb :=
  (ts.filterMap id).filter (fun t => t.url != "")

/-- Embeds `max(valid_thumbnails, key=...)` on a list: CPython `max` scans
left to right and replaces the current best only on a strictly larger key,
so the first element of maximal key wins. -/
def maxByArea : List Thumb → Option Thumb
  | [] => none
  | t :: ts =>
    some (ts.foldl (fun best x => if thumbArea x > thumbArea best then x else best) t)

/-- The part of the yt-dlp info record `extract_best_thumbnail` inspects:
the video id, the `thumbnails` list and the direct `thumbnail` field (the
empty string models an absent or falsy value). -/
structure InfoThumbs where
  id : String
  thumbnails : List (Option Thumb)
  thumbnail : String
deriving Repr

/-- Embeds `get_youtube_thumbnail(video_id, quality)`: an empty id yields
the empty string; otherwise the preference list is built, the requested
quality is inserted at its front when recognized, and the `for` loop
returns the URL for the first entry unconditionally on its first
iteration. -/
def get_youtube_thumbnail (video_id : String) (quality : String) : String :=
  if video_id = "" then ""
  else
    match (if ["maxresdefault", "hqdefault", "mqdefault", "default"].contains quality
      then quality :: ["maxresdefault", "hqdefault", "mqdefault", "default"]
      else ["maxresdefault", "hqdefault", "mqdefault", "default"]) with
    | q :: _ => "https://i.ytimg.com/vi/" ++ video_id ++ "/" ++ q ++ ".jpg"
    | [] => "https://i.ytimg.com/vi/" ++ video_id ++ "/maxresdefault.jpg"

/-- Embeds `extract_best_thumbnail(info_dict)`.  The Python code guards the
max-computation with `if thumbnails:` and then `if valid_thumbnails:`; both
guards fail exactly when `valid_thumbnails` is empty (it is a sublist of
`thumbnails`), which the single `maxByArea = none` case captures.  The
direct `thumbnail` field is tried next, then the platform fallback keyed by
the id (called with the default `quality='maxresdefault'` argument), then
the empty string. -/
def extract_best_thumbnail (info : InfoThumbs) : String :=
  match maxByArea (valid_thumbnails info.thumbnails) with
  | some best => best.url
  | none =>
    if info.thumbnail != "" then info.thumbnail
    else if info.id != "" then get_youtube_thumbnail info.id "maxresdefault"
    else ""

/-- Embeds `ensure_thumbnail_availability(video_data)` restricted to the two
fields it reads: when the thumbnail is falsy and the id truthy, the
platform fallback (default quality) is substituted. -/
def ensure_thumbnail_availability (thumbnail : String) (id : String) : String :=
  if thumbnail = "" && id != "" then get_youtube_thumbnail id "maxresdefault"
  else thumbnail

lemma foldl_maxArea_mem (t : Thumb) (ts : List Thumb) :
    ts.foldl (fun best x => if thumbArea x > thumbArea best then x else best) t
      ∈ t :: ts := by
  induction ts generalizing t with
  | nil => simp
  | cons a ts ih =>
    rw [List.foldl_cons]
    rcases List.mem_cons.mp (ih (if thumbArea a > thumbArea t then a else t)) with h | h
    · rw [h]
      split
      · exact List.mem_cons_of_mem _ (List.mem_cons_self a ts)
      · exact List.mem_cons_self t _
    · exact List.mem_cons_of_mem _ (List.mem_cons_of_mem a h)

lemma foldl_maxArea_ge (t : Thumb) (ts : List Thumb) :
    ∀ x ∈ t :: ts,
      thumbArea x ≤
        thumbArea
          (ts.foldl (fun best x => if thumbArea x > thumbArea best then x else best) t) := by
  induction ts generalizing t with
  | nil =>
    intro x hx
    rcases List.mem_cons.mp hx with h | h
    · rw [h]
      exact le_refl _
    · exact absurd h (by simp)
  | cons a ts ih =>
    intro x hx
    rw [List.foldl_cons]
    have hstep : thumbArea t ≤ thumbArea (if thumbArea a > thumbArea t then a else t) ∧
        thumbArea a ≤ thumbArea (if thumbArea a > thumbArea t then a else t) := by
      split
      · rename_i hgt
        exact ⟨le_of_lt hgt, le_refl _⟩
      · rename_i hle
        exact ⟨le_refl _, by omega⟩
    have hhead := ih (if thumbArea a > thumbArea t then a else t)
      _ (List.mem_cons_self _ ts)
    rcases List.mem_cons.mp hx with h | h
    · rw [h]
      exact le_trans hstep.1 hhead
    · rcases List.mem_cons.mp h with h2 | h2
      · rw [h2]
        exact le_trans hstep.2 hhead
      · exact ih _ x (List.mem_cons_of_mem _ h2)

lemma maxByArea_spec {ts : List Thumb} {t : Thumb} (h : maxByArea ts = some t) :
    t ∈ ts ∧ ∀ x ∈ ts, thumbArea x ≤ thumbArea t := by
  cases ts with
  | nil => exact absurd h (by simp [maxByArea])
  | cons a ts =>
    rw [maxByArea, Option.some_inj] at h
    rw [← h]
    exact ⟨foldl_maxArea_mem a ts, foldl_maxArea_ge a ts⟩

lemma get_youtube_thumbnail_default {id : String} (h : id ≠ "") :
    get_youtube_thumbnail id "maxresdefault" =
      "https://i.ytimg.com/vi/" ++ id ++ "/" ++ "maxresdefault" ++ ".jpg" := by
  unfold get_youtube_thumbnail
  rw [if_neg h]
  rfl

lemma ytimg_url_ne_empty (id : String) :
    "https://i.ytimg.com/vi/" ++ id ++ "/" ++ "maxresdefault" ++ ".jpg" ≠ "" := by
  intro he
  have hlen := congrArg String.length he
  simp only [String.length_append] at hlen
  have h4 : String.length ".jpg" = 4 := rfl
  have h0 : String.length "" = 0 := rfl
  omega

/-- An info record with a known id, an empty variants list, and a nonempty
direct `thumbnail` field, used to separate the coded fallback order from
the claimed one. -/
def thumbCexInfo : InfoThumbs :=
  ⟨"dQw4w9WgXcQ", [], "https://example.com/direct.jpg"⟩

/-- C6 counterexample: with no listed thumbnail variants the code returns
the direct `thumbnail` field of the info record, not the platform-pattern
URL keyed by the video id that the claim prescribes for the no-variant
case. -/
theorem thumbnail_policy_counterexample :
    thumbCexInfo.thumbnails = [] ∧
    extract_best_thumbnail thumbCexInfo = "https://example.com/direct.jpg" ∧
    extract_best_thumbnail thumbCexInfo ≠
      get_youtube_thumbnail thumbCexInfo.id "maxresdefault" := by
  refine ⟨rfl, rfl, ?_⟩
  decide

/-- C6 (amended): the chosen thumbnail is a listed valid variant of maximum
width-times-height area whenever any valid variant exists; with no valid
variant it is the direct `thumbnail` field when that is nonempty, and only
otherwise the platform-pattern `maxresdefault` URL keyed by the id; and it
is never the empty string when the id is known. -/
theorem thumbnail_selection_policy :
    (∀ (info : InfoThumbs) (t : Thumb),
        maxByArea (valid_thumbnails info.thumbnails) = some t →
        extract_best_thumbnail info = t.url ∧
        t ∈ valid_thumbnails info.thumbnails ∧
        ∀ x ∈ valid_thumbnails info.thumbnails, thumbArea x ≤ thumbArea t) ∧
    (∀ info : InfoThumbs, valid_thumbnails info.thumbnails = [] →
        info.thumbnail ≠ "" → extract_best_thumbnail info = info.thumbnail) ∧
    (∀ info : InfoThumbs, valid_thumbnails info.thumbnails = [] →
        info.thumbnail = "" → info.id ≠ "" →
        extract_best_thumbnail info =
          "https://i.ytimg.com/vi/" ++ info.id ++ "/" ++ "maxresdefault" ++ ".jpg") ∧
    (∀ info : InfoThumbs, info.id ≠ "" → extract_best_thumbnail info ≠ "") := by
  refine ⟨?_, ?_, ?_, ?_⟩
  · intro info t h
    have hspec := maxByArea_spec h
    unfold extract_best_thumbnail
    rw [h]
    exact ⟨rfl, hspec.1, hspec.2⟩
  · intro info hval hth
    unfold extract_best_thumbnail
    rw [hval]
    show (if (info.thumbnail != "") = true then info.thumbnail else _) = _
    rw [if_pos (bne_iff_ne.mpr hth)]
  · intro info hval hth hid
    unfold extract_best_thumbnail
    rw [hval]
    show (if (info.thumbnail != "") = true then info.thumbnail else _) = _
    rw [if_neg (by simp [hth]), if_pos (bne_iff_ne.mpr hid),
      get_youtube_thumbnail_default hid]
  · intro info hid
    unfold extract_best_thumbnail
    cases hm : maxByArea (valid_thumbnails info.thumbnails) with
    | some best =>
      have hmem := (maxByArea_spec hm).1
      simp only [valid_thumbnails] at hmem
      exact bne_iff_ne.mp (List.mem_filter.mp hmem).2
    | none =>
      by_cases hth : info.thumbnail = ""
      · rw [if_neg (by simp [hth]), if_pos (bne_iff_ne.mpr hid),
          get_youtube_thumbnail_default hid]
        exact ytimg_url_ne_empty _
      · rw [if_pos (bne_iff_ne.mpr hth)]
        exact hth

/-- A concrete info record with two valid variants (one large, one small)
and one Python-None entry. -/
def thumbWitnessInfo : InfoThumbs :=
  ⟨"dQw4w9WgXcQ",
    [some ⟨"https://small.jpg", 120, 90⟩, none, some ⟨"https://big.jpg", 1280, 720⟩],
    ""⟩

theorem thumbnail_selection_policy_witness :
    extract_best_thumbnail thumbWitnessInfo = "https://big.jpg" :=
  (thumbnail_selection_policy.1 thumbWitnessInfo
    ⟨"https://big.jpg", 1280, 720⟩ (by decide)).1

/-- Embeds `str(v).isdigit()` as used on view counts (ASCII decimal digits;
the empty string is not a digit string). -/
def isDigitStr (s : String) : Bool :=
  s != "" && s.toList.all Char.isDigit

/-- The numeric value `int(s)` parses from a decimal digit string. -/
def decimalVal (s : String) : Nat :=
  s.toList.foldl (fun n c => n * 10 + (c.toNat - ('0').toNat)) 0

/-- Embeds the `views` field computation shared by both branches of the
`/youtube` handler: `int(v) if str(v).isdigit() else 0`, applied to the
string form of the upstream value. -/
def views_field (upstream : String) : Int :=
  if isDigitStr upstream then (decimalVal upstream : Int) else 0

/-- C8: the `views` field of a successful `/youtube` response is always a
non-negative integer; it equals the parsed upstream value exactly when that
value is a nonempty string of decimal digits, and is zero for every other
upstream value — including the formatted view-count text the search-branch
resolver produces and the string form of a negative number. -/
theorem views_field_spec :
    (∀ s : String, 0 ≤ views_field s) ∧
    (∀ s : String, isDigitStr s = true → views_field s = decimalVal s) ∧
    (∀ s : String, isDigitStr s = false → views_field s = 0) ∧
    views_field "706072166" = 706072166 ∧
    views_field "1.2M views" = 0 ∧
    views_field "-5" = 0 := by
  refine ⟨?_, ?_, ?_, by decide, by decide, by decide⟩
  · intro s
    unfold views_field
    split
    · exact Int.natCast_nonneg _
    · exact le_refl 0
  · intro s h
    unfold views_field
    rw [if_pos h]
  · intro s h
    unfold views_field
    rw [if_neg (by rw [h]; exact Bool.false_ne_true)]

theorem views_field_spec_witness :
    views_field "42" = decimalVal "42" :=
  views_field_spec.2.1 "42" (by decide)

/-- The columns of the `ApiKey` model row that the `required_api_key`
decorator reads; datetimes are embedded as `Nat` instants, counters as
`Int` (Python ints). -/
structure ApiKeyRec where
  key : String
  is_admin : Bool
  valid_until : Nat
  daily_limit : Int
  reset_at : Nat
  count : Int
deriving DecidableEq, Repr

/-- Embeds `ApiKey.is_expired`: `datetime.datetime.now() > self.valid_until`. -/
def is_expired (k : ApiKeyRec) (now : Nat) : Bool :=
  decide (now > k.valid_until)

/-- Embeds `ApiKey.remaining_requests`: a full quota once the reset instant
has passed, otherwise the daily limit less the used count. -/
def remaining_requests (k : ApiKeyRec) (now : Nat) : Int :=
  if now > k.reset_at then k.daily_limit else k.daily_limit - k.count

/-- Outcome of the `required_api_key` guard chain: an early JSON error
response with its HTTP status, or fall-through to the wrapped handler. -/
inductive AuthOutcome where
  | rejected (status : Nat) (error : String)
  | accepted
deriving DecidableEq, Repr

/-- Embeds the guard chain of the `required_api_key` decorator, in source
order: falsy key parameter, unknown key, expired key, exhausted quota; the
wrapped handler runs only when every guard passes. -/
def required_api_key (key_param : Option String)
    (lookup : String → Option ApiKeyRec) (now : Nat) : AuthOutcome :=
  match key_param with
  | none => .rejected 401 "API key is required"
  | some ks =>
    if ks = "" then .rejected 401 "API key is required"
    else
      match lookup ks with
      | none => .rejected 401 "Invalid API key"
      | some k =>
        if is_expired k now then .rejected 401 "API key has expired"
        else if remaining_requests k now ≤ 0 then .rejected 429 "Daily limit exceeded"
        else .accepted

/-- The decorated `/youtube` handler: the Boolean records whether the
wrapped handler body — and with it any Metadata Resolver work — was
reached. -/
def handle_youtube_gate (key_param : Option String)
    (lookup : String → Option ApiKeyRec) (now : Nat) : AuthOutcome × Bool :=
  match required_api_key key_param lookup now with
  | .rejected s e => (.rejected s e, false)
  | .accepted => (.accepted, true)

/-- C5: a key with zero remaining quota makes `/youtube` answer 429 with no
resolver work; more generally a missing, empty, unknown, expired or
over-quota key is rejected with the appropriate 401/429 before the handler
body runs, and the handler body runs only when the guard chain accepts. -/
theorem quota_gate_rejects_before_resolution :
    (∀ (lookup : String → Option ApiKeyRec) (now : Nat) (k : ApiKeyRec)
        (ks : String), ks ≠ "" → lookup ks = some k →
        is_expired k now = false → remaining_requests k now = 0 →
        handle_youtube_gate (some ks) lookup now =
          (.rejected 429 "Daily limit exceeded", false)) ∧
    (∀ (lookup : String → Option ApiKeyRec) (now : Nat),
        handle_youtube_gate none lookup now =
          (.rejected 401 "API key is required", false)) ∧
    (∀ (lookup : String → Option ApiKeyRec) (now : Nat) (ks : String),
        ks ≠ "" → lookup ks = none →
        handle_youtube_gate (some ks) lookup now =
          (.rejected 401 "Invalid API key", false)) ∧
    (∀ (lookup : String → Option ApiKeyRec) (now : Nat) (k : ApiKeyRec)
        (ks : String), ks ≠ "" → lookup ks = some k →
        is_expired k now = true →
        handle_youtube_gate (some ks) lookup now =
          (.rejected 401 "API key has expired", false)) ∧
    (∀ (lookup : String → Option ApiKeyRec) (now : Nat) (k : ApiKeyRec)
        (ks : String), ks ≠ "" → lookup ks = some k →
        is_expired k now = false → remaining_requests k now ≤ 0 →
        handle_youtube_gate (some ks) lookup now =
          (.rejected 429 "Daily limit exceeded", false)) ∧
    (∀ (key_param : Option String) (lookup : String → Option ApiKeyRec)
        (now : Nat),
        (handle_youtube_gate key_param lookup now).2 = true →
        required_api_key key_param lookup now = .accepted) := by
  have hover : ∀ (lookup : String → Option ApiKeyRec) (now : Nat)
      (k : ApiKeyRec) (ks : String), ks ≠ "" → lookup ks = some k →
      is_expired k now = false → remaining_requests k now ≤ 0 →
      handle_youtube_gate (some ks) lookup now =
        (.rejected 429 "Daily limit exceeded", false) := by
    intro lookup now k ks hks hlk hexp hrem
    simp [handle_youtube_gate, required_api_key, hks, hlk, hexp, hrem]
  refine ⟨?_, ?_, ?_, ?_, hover, ?_⟩
  · intro lookup now k ks hks hlk hexp hrem
    exact hover lookup now k ks hks hlk hexp (le_of_eq hrem)
  · intro lookup now
    rfl
  · intro lookup now ks hks hlk
    simp [handle_youtube_gate, required_api_key, hks, hlk]
  · intro lookup now k ks hks hlk hexp
    simp [handle_youtube_gate, required_api_key, hks, hlk, hexp]
  · intro key_param lookup now h
    unfold handle_youtube_gate at h
    cases hr : required_api_key key_param lookup now with
    | rejected s e =>
      rw [hr] at h
      exact absurd h (by simp)
    | accepted => rfl

theorem quota_gate_rejects_before_resolution_witness :
    handle_youtube_gate (some "key1")
      (fun s => if s == "key1" then some ⟨"key1", false, 9999, 100, 9999, 100⟩ else none)
      0 = (.rejected 429 "Daily limit exceeded", false) :=
  quota_gate_rejects_before_resolution.1
    (fun s => if s == "key1" then some ⟨"key1", false, 9999, 100, 9999, 100⟩ else none)
    0 ⟨"key1", false, 9999, 100, 9999, 100⟩ "key1"
    (by decide) (by decide) (by decide) (by decide)

/-- The value stored for a stream handle by `get_stream_url`: upstream URL,
mode flag, and the absolute expiry instant `time.time() + 3600`. -/
structure StreamData where
  url : String
  is_video : Bool
  expires : Nat
deriving DecidableEq, Repr

/-- Dict read `cache.get(key)` on the stream portion of the in-memory
cache, embedded as an association list. -/
def cacheGet (c : List (String × StreamData)) (k : String) :
    Option StreamData :=
  (c.find? (fun e => e.1 == k)).map Prod.snd

/-- Embeds the handle-minting tail of `get_stream_url`:
`cache[f"stream:{stream_id}"] = {"url": ..., "is_video": ..., "expires":
time.time() + 3600}` (dict assignment embedded as
replace-and-insert-at-front). -/
def store_stream (c : List (String × StreamData)) (stream_id : String)
    (stream_url : String) (is_video : Bool) (now : Nat) :
    List (String × StreamData) :=
  ("stream:" ++ stream_id, ⟨stream_url, is_video, now + 3600⟩) ::
    c.filter (fun e => e.1 != "stream:" ++ stream_id)

/-- Observable outcome of the `/stream/<stream_id>` handler: the 404 body
`{"error": "Stream not found or expired"}`, the 500 body for an entry with
a falsy URL, or the chunked relay of the stored upstream URL with the
content type chosen by mode. -/
inductive StreamResponse where
  | notFound
  | invalidUrl
  | chunkedRelay (url : String) (content_type : String)
deriving DecidableEq, Repr

/-- Embeds the `stream_media` handler: the registry read consults only the
presence of `f"stream:{stream_id}"` in the cache — the handler takes no
clock and never reads the stored `expires` field. -/
def stream_media (c : List (String × StreamData)) (stream_id : String) :
    StreamResponse :=
  match cacheGet c ("stream:" ++ stream_id) with
  | none => .notFound
  | some sd =>
    if sd.url = "" then .invalidUrl
    else .chunkedRelay sd.url (if sd.is_video then "video/mp4" else "audio/mp4")

/-- The stream-entry half of `cleanup_old_files`: an entry is deleted
exactly when `current_time > entry['expires']`. -/
def cleanup_streams (c : List (String × StreamData)) (now : Nat) :
    List (String × StreamData) :=
  c.filter (fun e => !(decide (now > e.2.expires)))

/-- C1 evaluation at the failing input: a handle stored at time 0 carries
the one-hour expiry 3600, and a lookup immediately after creation finds it
(the true half of the claim); but at simulated time 3601, before any sweep
has run, `stream_media` still serves the stream — the handler reads no
clock and ignores the stored expiry, so only the sweep enforces it, after
which the lookup is NotFound. -/
theorem stream_lookup_ignores_expiry :
    (store_stream [] "handle1" "https://upstream/media" false 0).map
      (fun e => e.2.expires) = [3600] ∧
    stream_media (store_stream [] "handle1" "https://upstream/media" false 0)
      "handle1" = .chunkedRelay "https://upstream/media" "audio/mp4" ∧
    stream_media
      (cleanup_streams
        (store_stream [] "handle1" "https://upstream/media" false 0) 3601)
      "handle1" = .notFound := by
  exact ⟨by decide, by decide, by decide⟩

/-- The mutable state a wrapper produced by the `cached(timeout)` decorator
would work on: the module-level `cache` dict restricted to result entries
`(result, timestamp)`, plus an instrumentation counter of wrapped-function
invocations.  The decorator is defined but applied to no function anywhere
in the repository. -/
structure CacheState (α : Type) where
  entries : List (String × α × Nat)
  calls : Nat

/-- Dict read `cache[cache_key]` (with the `cache_key in cache` presence
test) on the result-cache association list. -/
def cacheLookup {α : Type} (entries : List (String × α × Nat)) (k : String) :
    Option (α × Nat) :=
  (entries.find? (fun e => e.1 == k)).map Prod.snd

/-- The miss path of the wrapper: invoke the wrapped function, store
`(result, time.time())` under the key, then run the in-call cleanup that
deletes every entry older than the timeout (`current_time - timestamp >
timeout`); the fresh entry survives it since its age is zero. -/
def cacheMiss {α : Type} (timeout : Nat) (k : String) (computeFn : Unit → α)
    (now : Nat) (st : CacheState α) : α × CacheState α :=
  (computeFn (),
    ⟨((k, computeFn (), now) :: st.entries.filter (fun e => e.1 != k)).filter
        (fun e => !(decide (now - e.2.2 > timeout))),
      st.calls + 1⟩)

/-- One call through the wrapper produced by `cached(timeout)`: a stored
entry younger than the timeout is returned as is, with no invocation of
the wrapped function and no state change; otherwise the miss path runs. -/
def cachedWrapper {α : Type} (timeout : Nat) (k : String)
    (computeFn : Unit → α) (now : Nat) (st : CacheState α) :
    α × CacheState α :=
  match cacheLookup st.entries k with
  | some (result, ts) =>
    if now - ts < timeout then (result, st)
    else cacheMiss timeout k computeFn now st
  | none => cacheMiss timeout k computeFn now st

lemma cacheMiss_lookup {α : Type} (timeout : Nat) (k : String)
    (computeFn : Unit → α) (now : Nat) (st : CacheState α) :
    cacheLookup (cacheMiss timeout k computeFn now st).2.entries k =
      some (computeFn (), now) := by
  simp only [cacheMiss]
  rw [List.filter_cons]
  have hage : (!(decide (now - now > timeout))) = true := by
    simp
  rw [if_pos hage]
  unfold cacheLookup
  rw [List.find?_cons_of_pos _ (by simp)]
  rfl

/-- Contract of the wrapper the `cached(timeout)` decorator would build
around a function, in isolation: a cache hit younger than the TTL returns
the stored value with no wrapped-function invocation and no state change,
so a miss followed by a second call on the same key within the TTL
performs a single invocation in total.  This is the behaviour the spec
ascribes to the Result Cache; the repository defines the decorator but
never applies it to any function. -/
lemma cachedWrapper_hit_no_recompute :
    (∀ (α : Type) (timeout : Nat) (k : String) (computeFn : Unit → α)
        (now ts : Nat) (v : α) (st : CacheState α),
        cacheLookup st.entries k = some (v, ts) → now - ts < timeout →
        cachedWrapper timeout k computeFn now st = (v, st)) ∧
    (∀ (α : Type) (timeout : Nat) (k : String) (computeFn : Unit → α)
        (t1 t2 : Nat) (st0 : CacheState α),
        cacheLookup st0.entries k = none → t2 - t1 < timeout →
        cachedWrapper timeout k computeFn t2
            (cachedWrapper timeout k computeFn t1 st0).2 =
          ((cachedWrapper timeout k computeFn t1 st0).1,
            (cachedWrapper timeout k computeFn t1 st0).2) ∧
        (cachedWrapper timeout k computeFn t1 st0).1 = computeFn () ∧
        (cachedWrapper timeout k computeFn t1 st0).2.calls = st0.calls + 1) := by
  have hit : ∀ (α : Type) (timeout : Nat) (k : String) (computeFn : Unit → α)
      (now ts : Nat) (v : α) (st : CacheState α),
      cacheLookup st.entries k = some (v, ts) → now - ts < timeout →
      cachedWrapper timeout k computeFn now st = (v, st) := by
    intro α timeout k computeFn now ts v st h hfresh
    unfold cachedWrapper
    rw [h]
    show (if now - ts < timeout then (v, st)
      else cacheMiss timeout k computeFn now st) = (v, st)
    rw [if_pos hfresh]
  refine ⟨hit, ?_⟩
  intro α timeout k computeFn t1 t2 st0 hnone hfresh
  have hfirst : cachedWrapper timeout k computeFn t1 st0 =
      cacheMiss timeout k computeFn t1 st0 := by
    unfold cachedWrapper
    rw [hnone]
  rw [hfirst]
  refine ⟨?_, rfl, rfl⟩
  exact hit α timeout k computeFn t2 t1 (computeFn ())
    (cacheMiss timeout k computeFn t1 st0).2
    (cacheMiss_lookup timeout k computeFn t1 st0) hfresh

/-- State observable across `/youtube` requests for the resolution
pipeline: the module-level result-cache entries (the `(result, timestamp)`
pairs a `cached` wrapper would manage) and an instrumentation counter of
upstream `ydl.extract_info` invocations. -/
structure ResolverState (α : Type) where
  result_cache : List (String × α × Nat)
  upstream_calls : Nat

/-- Embeds the metadata resolution performed by the direct-video branch of
the `/youtube` handler: `run_async(YouTubeAPIService.get_details,
video_url)` calls the plain staticmethod `get_details`, whose direct-URL
path always reaches `ydl.extract_info(url, download=False)` — one upstream
invocation per request.  No code path consults or updates the result cache
for metadata: the `cached` decorator is applied to no function in the
repository, so the handler reaches upstream on every call regardless of
what the cache holds. -/
def youtube_direct_get_details {α : Type} (extract_info : Unit → α)
    (st : ResolverState α) : α × ResolverState α :=
  (extract_info (), ⟨st.result_cache, st.upstream_calls + 1⟩)

/-- C2 evaluation at the failing input: because the `/youtube` handler
calls `get_details` directly and the `cached` decorator is never applied,
resolving the same direct video ID twice — at any two instants, however
close — performs two upstream extraction invocations, and resolution
leaves the result cache untouched (nothing is ever stored to be hit); in
particular two back-to-back resolutions from a fresh state show two
upstream calls where the claim requires one. -/
theorem resolver_second_call_hits_upstream :
    (∀ (α : Type) (extract_info : Unit → α) (st : ResolverState α),
        (youtube_direct_get_details extract_info
            (youtube_direct_get_details extract_info st).2).2.upstream_calls =
          st.upstream_calls + 2) ∧
    (∀ (α : Type) (extract_info : Unit → α) (st : ResolverState α),
        (youtube_direct_get_details extract_info st).2.result_cache =
          st.result_cache) ∧
    (youtube_direct_get_details (fun _ => 273)
        (youtube_direct_get_details (fun _ => 273)
          (⟨[], 0⟩ : ResolverState Nat)).2).2.upstream_calls = 2 := by
  refine ⟨?_, ?_, rfl⟩
  · intro α extract_info st
    rfl
  · intro α extract_info st
    rfl

/-- The order Python's `sorted` applies to `kwargs.items()`: tuples compare
lexicographically, and since dict keys are distinct the key comparison
decides; the value component is included for totality. -/
def kwLe (p q : String × String) : Prop :=
  p.1 < q.1 ∨ (p.1 = q.1 ∧ p.2 ≤ q.2)

instance : DecidableRel kwLe := fun p q => by
  unfold kwLe
  infer_instance

instance : IsTotal (String × String) kwLe where
  total := by
    intro p q
    rcases lt_trichotomy p.1 q.1 with h | h | h
    · exact Or.inl (Or.inl h)
    · rcases le_total p.2 q.2 with h2 | h2
      · exact Or.inl (Or.inr ⟨h, h2⟩)
      · exact Or.inr (Or.inr ⟨h.symm, h2⟩)
    · exact Or.inr (Or.inl h)

instance : IsTrans (String × String) kwLe where
  trans := by
    intro a b c hab hbc
    rcases hab with h | ⟨he, hv⟩ <;> rcases hbc with h2 | ⟨he2, hv2⟩
    · exact Or.inl (lt_trans h h2)
    · exact Or.inl (he2 ▸ h)
    · exact Or.inl (he ▸ h2)
    · exact Or.inr ⟨he.trans he2, le_trans hv hv2⟩

instance : IsAntisymm (String × String) kwLe where
  antisymm := by
    intro a b hab hba
    rcases hab with h | ⟨he, hv⟩
    · rcases hba with h2 | ⟨he2, hv2⟩
      · exact absurd h2 (lt_asymm h)
      · exact absurd h (by rw [he2]; exact lt_irrefl _)
    · rcases hba with h2 | ⟨he2, hv2⟩
      · exact absurd h2 (by rw [he]; exact lt_irrefl _)
      · exact Prod.ext he (le_antisymm hv hv2)

/-- Embeds `sorted(kwargs.items())`. -/
def sorted_items (kwargs : List (String × String)) :
    List (String × String) :=
  kwargs.insertionSort kwLe

/-- Rendering of the positional tuple `str(args)`; an injective rendering
of the argument sequence is all the key derivation relies on. -/
def reprArgs (args : List String) : String :=
  "(" ++ String.intercalate ", " args ++ ")"

/-- Rendering of `str(sorted(kwargs.items()))` as a list of pair texts. -/
def reprPairs (pairs : List (String × String)) : String :=
  "[" ++
    String.intercalate ", "
      (pairs.map (fun p => "(" ++ p.1 ++ ", " ++ p.2 ++ ")")) ++
  "]"

/-- Embeds `generate_cache_key`: the digest input
`f"{func_name}:{str(args)}:{str(sorted(kwargs.items()))}"`.  The final
`hashlib.md5(...).hexdigest()` is a fixed deterministic function of this
string and is embedded as the identity, which preserves every fact about
equality of keys for equal inputs and key separation for distinct digest
inputs. -/
def generate_cache_key (func_name : String) (args : List String)
    (kwargs : List (String × String)) : String :=
  func_name ++ ":" ++ reprArgs args ++ ":" ++ reprPairs (sorted_items kwargs)

/-- C9: the cache key is a deterministic function of the operation name and
arguments, insensitive to the insertion order of keyword arguments (equal
mappings give equal keys, because sorting normalizes any permutation), and
sensitive to positional order (swapping two positional arguments changes
the key). -/
theorem cache_key_kwarg_order_insensitive :
    (∀ (func_name : String) (args : List String)
        (kw1 kw2 : List (String × String)), kw1.Perm kw2 →
        generate_cache_key func_name args kw1 =
          generate_cache_key func_name args kw2) ∧
    generate_cache_key "get_details" ["dQw4w9WgXcQ", "True"] [] ≠
      generate_cache_key "get_details" ["True", "dQw4w9WgXcQ"] [] := by
  constructor
  · intro func_name args kw1 kw2 hperm
    have hs : sorted_items kw1 = sorted_items kw2 :=
      List.eq_of_perm_of_sorted
        ((List.perm_insertionSort kwLe kw1).trans
          (hperm.trans (List.perm_insertionSort kwLe kw2).symm))
        (List.sorted_insertionSort kwLe kw1)
        (List.sorted_insertionSort kwLe kw2)
    unfold generate_cache_key
    rw [hs]
  · decide

theorem cache_key_kwarg_order_insensitive_witness :
    generate_cache_key "get_details" ["dQw4w9WgXcQ"]
        [("is_video", "True"), ("limit", "1")] =
      generate_cache_key "get_details" ["dQw4w9WgXcQ"]
        [("limit", "1"), ("is_video", "True")] :=
  cache_key_kwarg_order_insensitive.1 "get_details" ["dQw4w9WgXcQ"]
    [("is_video", "True"), ("limit", "1")]
    [("limit", "1"), ("is_video", "True")]
    (List.Perm.swap _ _ _)
